import Mathlib

/-!
# audiodsp: biquad filter designer and stereo mixing pipeline

A shallow embedding of `src/script_for_pico2/modules/audiodsp/audiodsp.c`.

Modelling conventions.

* A C `float` is read in two ways.  In the embedding `biquad_coefficients`,
  `apply_biquad`, `audiodsp_process` it is an element of a linear ordered field
  `α` (instantiate `α := ℚ` to run the definitions, `α := ℝ` for analysis):
  exact arithmetic, without rounding, infinities or NaN.  The theorems that
  only follow the expression tree of the source, or frame what a call may
  touch, hold for either reading.  The theorems on the design equations (C11,
  C12, C14 to C18) hold in exact arithmetic only, and say so.
* In `biquad_coefficients_arith`, `biquad_make_new_arith`, `apply_biquad_arith`
  the same program text is written over any type with the arithmetic
  operations; over a field these are the embeddings above (by `rfl`), and over
  `F32` they are the computation in binary32 (round to nearest, ties to even,
  subnormals, infinities, NaN; zero carries no sign), used to decide the values
  the program stores at concrete inputs.
* `tanf`, `powf`, `sqrtf` and the constant `M_PI` come from the C library; they
  are taken as parameters, bundled in `Libm`.  Where a property needs facts
  about them (positivity of the tangent, `10^x ≥ 1`, a square root is not
  negative) these are the hypothesis `LibmLaws`, which the real functions
  satisfy (`real_libm_laws`).  Limits are taken over the reals.
* A buffer (`mp_buffer_info_t`) is the list of its whole 16-bit elements plus a
  flag telling whether one more byte follows them, so that `len` is a byte
  count as in the source.
* The mutable memory a call of `audiodsp_process` can touch (the destination
  buffer and the four filter records) is passed in and returned explicitly.
  The four filters and the three buffers are separate values: the pipeline's
  precondition that they are distinct objects is built into the embedding.
* Byte counts, element counts and indices are natural numbers, and buffer
  elements are integers: the `size_t` products of the size check are not
  reduced modulo the word size (a buffer of the target is far smaller), and
  the 16-bit store of an output sample is reduced explicitly (`wrap_int16`).
* Raising a MicroPython exception is modelled by an `Except String` outcome.
-/

namespace AudioDsp

/-! ## Data model -/

/-- Filter type constant `LPF` of the anonymous enum. -/
def LPF : Int := 0
/-- Filter type constant `HPF`. -/
def HPF : Int := 1
/-- Filter type constant `BPF`. -/
def BPF : Int := 2
/-- Filter type constant `NOTCH`. -/
def NOTCH : Int := 3
/-- Filter type constant `PEQ`. -/
def PEQ : Int := 4
/-- Filter type constant `LSH`. -/
def LSH : Int := 5
/-- Filter type constant `HSH`. -/
def HSH : Int := 6

/-- Biquad filter record: five coefficients and four state variables. -/
structure biquad_state_t (α : Type) where
  a0 : α
  a1 : α
  a2 : α
  b1 : α
  b2 : α
  x1 : α
  x2 : α
  y1 : α
  y2 : α
  deriving DecidableEq, Repr

/-- The C library functions and constant used by the constructor. -/
structure Libm (α : Type) where
  M_PI : α
  tanf : α → α
  powf : α → α → α
  sqrtf : α → α

/-- The message of the `ValueError` raised by the constructor. -/
def err_filter_type : String := "Unknown or unsupported filter type"

/-- The message of the `ValueError` raised by `audiodsp_process`. -/
def err_dest_small : String := "Destination buffer too small"

/-- A buffer seen through `mp_get_buffer_raise`: `buf` holds the whole 16-bit
elements, `odd` tells whether a single further byte follows them. -/
structure mp_buffer_info_t where
  buf : List Int
  odd : Bool
  deriving DecidableEq, Repr

/-- Byte length of a buffer (`bufinfo.len`). -/
def mp_buffer_info_t.len (b : mp_buffer_info_t) : Nat :=
  2 * b.buf.length + (if b.odd then 1 else 0)

/-- Size in bytes of one sample, `sizeof(int16_t)`. -/
def sizeof_int16_t : Nat := 2

section Field

variable {α : Type} [LinearOrderedField α]

/-! ## Filter designer -/

/-- The five coefficients computed by the `switch (ftype)` of `biquad_make_new`,
in the order `(a0, a1, a2, b1, b2)`; the `default:` case raises. -/
def biquad_coefficients (m : Libm α) (ftype : Int) (Q peakGainDB V K : α) :
    Except String (α × α × α × α × α) :=
  if ftype = LPF then
    let norm := 1 / (1 + K / Q + K * K)
    let a0 := K * K * norm
    let a1 := 2 * a0
    let a2 := a0
    let b1 := 2 * (K * K - 1) * norm
    let b2 := (1 - K / Q + K * K) * norm
    .ok (a0, a1, a2, b1, b2)
  else if ftype = HPF then
    let norm := 1 / (1 + K / Q + K * K)
    let a0 := 1 * norm
    let a1 := -2 * a0
    let a2 := a0
    let b1 := 2 * (K * K - 1) * norm
    let b2 := (1 - K / Q + K * K) * norm
    .ok (a0, a1, a2, b1, b2)
  else if ftype = BPF then
    let norm := 1 / (1 + K / Q + K * K)
    let a0 := K / Q * norm
    let a1 := 0
    let a2 := -a0
    let b1 := 2 * (K * K - 1) * norm
    let b2 := (1 - K / Q + K * K) * norm
    .ok (a0, a1, a2, b1, b2)
  else if ftype = NOTCH then
    let norm := 1 / (1 + K / Q + K * K)
    let a0 := (1 + K * K) * norm
    let a1 := 2 * (K * K - 1) * norm
    let a2 := a0
    let b1 := a1
    let b2 := (1 - K / Q + K * K) * norm
    .ok (a0, a1, a2, b1, b2)
  else if ftype = PEQ then
    if peakGainDB ≥ 0 then
      let norm := 1 / (1 + 1 / Q * K + K * K)
      let a0 := (1 + V / Q * K + K * K) * norm
      let a1 := 2 * (K * K - 1) * norm
      let a2 := (1 - V / Q * K + K * K) * norm
      let b1 := a1
      let b2 := (1 - 1 / Q * K + K * K) * norm
      .ok (a0, a1, a2, b1, b2)
    else
      let norm := 1 / (1 + V / Q * K + K * K)
      let a0 := (1 + 1 / Q * K + K * K) * norm
      let a1 := 2 * (K * K - 1) * norm
      let a2 := (1 - 1 / Q * K + K * K) * norm
      let b1 := a1
      let b2 := (1 - V / Q * K + K * K) * norm
      .ok (a0, a1, a2, b1, b2)
  else if ftype = LSH then
    if peakGainDB ≥ 0 then
      let norm := 1 / (1 + m.sqrtf 2 * K + K * K)
      let a0 := (1 + m.sqrtf (2 * V) * K + V * K * K) * norm
      let a1 := 2 * (V * K * K - 1) * norm
      let a2 := (1 - m.sqrtf (2 * V) * K + V * K * K) * norm
      let b1 := 2 * (K * K - 1) * norm
      let b2 := (1 - m.sqrtf 2 * K + K * K) * norm
      .ok (a0, a1, a2, b1, b2)
    else
      let norm := 1 / (1 + m.sqrtf (2 * V) * K + V * K * K)
      let a0 := (1 + m.sqrtf 2 * K + K * K) * norm
      let a1 := 2 * (K * K - 1) * norm
      let a2 := (1 - m.sqrtf 2 * K + K * K) * norm
      let b1 := 2 * (V * K * K - 1) * norm
      let b2 := (1 - m.sqrtf (2 * V) * K + V * K * K) * norm
      .ok (a0, a1, a2, b1, b2)
  else if ftype = HSH then
    if peakGainDB ≥ 0 then
      let norm := 1 / (1 + m.sqrtf 2 * K + K * K)
      let a0 := (V + m.sqrtf (2 * V) * K + K * K) * norm
      let a1 := 2 * (K * K - V) * norm
      let a2 := (V - m.sqrtf (2 * V) * K + K * K) * norm
      let b1 := 2 * (K * K - 1) * norm
      let b2 := (1 - m.sqrtf 2 * K + K * K) * norm
      .ok (a0, a1, a2, b1, b2)
    else
      let norm := 1 / (V + m.sqrtf (2 * V) * K + K * K)
      let a0 := (1 + m.sqrtf 2 * K + K * K) * norm
      let a1 := 2 * (K * K - 1) * norm
      let a2 := (1 - m.sqrtf 2 * K + K * K) * norm
      let b1 := 2 * (K * K - V) * norm
      let b2 := (V - m.sqrtf (2 * V) * K + K * K) * norm
      .ok (a0, a1, a2, b1, b2)
  else
    .error err_filter_type

/-- Constructor of the `Biquad` object.  `peakGainDB_arg` is the keyword-only
argument, `none` when it is left at `None` (then `peakGainDB = 0.0f`).  The
result is the record stored in the new object, or the raised error. -/
def biquad_make_new (m : Libm α) (ftype : Int) (Fc Q : α) (peakGainDB_arg : Option α) :
    Except String (biquad_state_t α) :=
  let peakGainDB : α :=
    match peakGainDB_arg with
    | none => 0
    | some g => g
  let V := m.powf 10 (|peakGainDB| / 20)
  let K := m.tanf (m.M_PI * Fc)
  match biquad_coefficients m ftype Q peakGainDB V K with
  | .error e => .error e
  | .ok (a0, a1, a2, b1, b2) =>
    .ok { a0 := a0, a1 := a1, a2 := a2, b1 := b1, b2 := b2,
          x1 := 0, x2 := 0, y1 := 0, y2 := 0 }

/-! ## Sample application -/

/-- One step of the recursion: returns the output sample and the record after
the four assignments, performed in the order of the source. -/
def apply_biquad (state : biquad_state_t α) (input : α) : α × biquad_state_t α :=
  let acc := state.a0 * input + state.a1 * state.x1 + state.a2 * state.x2
  let feedback := state.b1 * state.y1 + state.b2 * state.y2
  let output := acc - feedback
  let s1 := { state with x2 := state.x1 }
  let s2 := { s1 with x1 := input }
  let s3 := { s2 with y2 := s2.y1 }
  let s4 := { s3 with y1 := output }
  (output, s4)

end Field

section Pipeline

variable {α : Type} [LinearOrderedField α] [FloorRing α]

/-! ## Stereo mixing pipeline -/

/-- Conversion of a real to an integer as C performs it: the fractional part is
discarded. -/
def trunc_toward_zero (v : α) : Int :=
  if 0 ≤ v then ⌊v⌋ else ⌈v⌉

/-- The value held by a 16-bit two's complement word that stores `z`. -/
def wrap_int16 (z : Int) : Int :=
  (z + 32768) % 65536 - 32768

/-- The cast `(int16_t)v` of a float. -/
def cast_int16 (v : α) : Int :=
  wrap_int16 (trunc_toward_zero v)

/-- Step 5 of the loop body, "Clipping to 16-bit range":
`if (v > 32767.0f) v = 32767.0f; else if (v < -32768.0f) v = -32768.0f;`. -/
def clip16 (v : α) : α :=
  if v > 32767 then 32767 else if v < -32768 then -32768 else v

/-- Step 3, "Implement Pan logic": the pair `(final_gain_l, final_gain_r)`. -/
def pan_gains (g1_base g2_base pan : α) : α × α :=
  let final_gain_l := g1_base
  let final_gain_r := g2_base
  if pan > 0 then
    (final_gain_l * (1 - pan), final_gain_r)
  else if pan < 0 then
    (final_gain_l, final_gain_r * (1 + pan))
  else
    (final_gain_l, final_gain_r)

/-- The scalar arguments `args[7]` to `args[14]` of `audiodsp_process`. -/
structure process_params (α : Type) where
  g1_base : α
  g2_base : α
  pan : α
  bass_l : α
  treble_l : α
  bass_r : α
  treble_r : α
  master : α

/-- The memory a call of `audiodsp_process` may write: the destination buffer
`args[0]` and the records of the four filter objects `args[3]` to `args[6]`. -/
structure process_mem (α : Type) where
  dest : mp_buffer_info_t
  lpf_l : biquad_state_t α
  hpf_l : biquad_state_t α
  lpf_r : biquad_state_t α
  hpf_r : biquad_state_t α

/-- Body of the main processing loop for index `i`. -/
def process_sample (p : process_params α) (final_gain_l final_gain_r : α)
    (src1 src2 : List Int) (i : Nat) (mem : process_mem α) : process_mem α :=
  let sample_l_in : α := ((src1.getD i 0 : Int) : α)
  let rlow_l := apply_biquad mem.lpf_l sample_l_in
  let low_l := rlow_l.1
  let rhigh_l := apply_biquad mem.hpf_l sample_l_in
  let high_l := rhigh_l.1
  let sample_l_eq := (low_l * p.bass_l) + (high_l * p.treble_l)
  let final_l := sample_l_eq * final_gain_l * p.master
  let sample_r_in : α := ((src2.getD i 0 : Int) : α)
  let rlow_r := apply_biquad mem.lpf_r sample_r_in
  let low_r := rlow_r.1
  let rhigh_r := apply_biquad mem.hpf_r sample_r_in
  let high_r := rhigh_r.1
  let sample_r_eq := (low_r * p.bass_r) + (high_r * p.treble_r)
  let final_r := sample_r_eq * final_gain_r * p.master
  let final_l := clip16 final_l
  let final_r := clip16 final_r
  let dest1 := mem.dest.buf.set (i * 2) (cast_int16 final_l)
  let dest2 := dest1.set (i * 2 + 1) (cast_int16 final_r)
  { dest := { mem.dest with buf := dest2 },
    lpf_l := rlow_l.2, hpf_l := rhigh_l.2, lpf_r := rlow_r.2, hpf_r := rhigh_r.2 }

/-- The loop `for (i = ...; i < n_samples; i++)` with `k` iterations left to run
from index `i`. -/
def process_loop (p : process_params α) (final_gain_l final_gain_r : α)
    (src1 src2 : List Int) : Nat → Nat → process_mem α → process_mem α
  | 0, _, mem => mem
  | k + 1, i, mem =>
    process_loop p final_gain_l final_gain_r src1 src2 k (i + 1)
      (process_sample p final_gain_l final_gain_r src1 src2 i mem)

/-- Step 2, "Determine processing length". -/
def n_samples (src1 src2 : mp_buffer_info_t) : Nat :=
  let n_samples_1 := src1.len / sizeof_int16_t
  let n_samples_2 := src2.len / sizeof_int16_t
  if n_samples_1 < n_samples_2 then n_samples_1 else n_samples_2

/-- The function `audiodsp.process`: the outcome (normal return of `None`, or
the raised error) and the memory after the call. -/
def audiodsp_process (p : process_params α) (src1 src2 : mp_buffer_info_t)
    (mem : process_mem α) : Except String Unit × process_mem α :=
  let n := n_samples src1 src2
  if mem.dest.len < n * sizeof_int16_t * 2 then
    (.error err_dest_small, mem)
  else
    let g := pan_gains p.g1_base p.g2_base p.pan
    (.ok (), process_loop p g.1 g.2 src1.buf src2.buf n 0 mem)

end Pipeline

/-! ## Auxiliary definitions used to state the properties -/

section SpecDefs

variable {α : Type} [LinearOrderedField α]

/-- The five coefficients of a filter record. -/
def coeffs (s : biquad_state_t α) : α × α × α × α × α :=
  (s.a0, s.a1, s.a2, s.b1, s.b2)

/-- The record after feeding the samples `xs`, in order, through `apply_biquad`. -/
def biquad_run (s : biquad_state_t α) (xs : List α) : biquad_state_t α :=
  xs.foldl (fun st x => (apply_biquad st x).2) s

/-- The output of the application number `i` (counted from 0) when the
sequence `x 0, x 1, ...` is fed through `apply_biquad` starting from `s`. -/
def biquad_output (s : biquad_state_t α) (x : Nat → α) (i : Nat) : α :=
  (apply_biquad (biquad_run s ((List.range i).map x)) (x i)).1

end SpecDefs

section SpecDefsPipeline

variable {α : Type} [LinearOrderedField α] [FloorRing α]

/-- The 16-bit sample stored for one channel, from the outputs `lo`, `hi` of
its two band filters: EQ mix, gain, master gain, clipping and cast. -/
def mix_sample (lo hi bass treble gain master : α) : Int :=
  cast_int16 (clip16 ((lo * bass + hi * treble) * gain * master))

/-- The samples of a source buffer as a sequence of field elements, the value
of `(float)src[j]`. -/
def src_input (src : List Int) : Nat → α :=
  fun j => ((src.getD j 0 : Int) : α)

end SpecDefsPipeline

/-! ## A concrete call, over the rationals -/

/-- A filter record with coefficients `1/2, 1/3, 1/4, 1/5, 1/6` and zero state. -/
def demo_filter : biquad_state_t ℚ :=
  { a0 := 1 / 2, a1 := 1 / 3, a2 := 1 / 4, b1 := 1 / 5, b2 := 1 / 6,
    x1 := 0, x2 := 0, y1 := 0, y2 := 0 }

/-- Unit gains and EQ weights, pan `1/2`. -/
def demo_params : process_params ℚ :=
  { g1_base := 1, g2_base := 1, pan := 1 / 2, bass_l := 1, treble_l := 1,
    bass_r := 1, treble_r := 1, master := 1 }

/-- A left source of three samples followed by a stray byte. -/
def demo_src1 : mp_buffer_info_t := { buf := [100, 200, -300], odd := true }

/-- A left source that differs from `demo_src1` in its third sample only. -/
def demo_alt1 : mp_buffer_info_t := { buf := [100, 200, 999], odd := true }

/-- A right source of two samples. -/
def demo_src2 : mp_buffer_info_t := { buf := [5, -7], odd := false }

/-- A destination of five elements and four copies of `demo_filter`. -/
def demo_mem : process_mem ℚ :=
  { dest := { buf := [9, 9, 9, 9, 9], odd := false },
    lpf_l := demo_filter, hpf_l := demo_filter, lpf_r := demo_filter, hpf_r := demo_filter }


/-- A first call, on two samples per channel. -/
def demo_call_first : Except String Unit × process_mem ℚ :=
  audiodsp_process demo_params { buf := [100, 200], odd := false }
    { buf := [5, -7], odd := false }
    { dest := { buf := [0, 0, 0, 0], odd := false }, lpf_l := demo_filter,
      hpf_l := demo_filter, lpf_r := demo_filter, hpf_r := demo_filter }

/-- A second call, on one more sample per channel, with the filters left by
the first call. -/
def demo_call_second : Except String Unit × process_mem ℚ :=
  audiodsp_process demo_params { buf := [300], odd := false } { buf := [9], odd := false }
    { dest := { buf := [0, 0], odd := false }, lpf_l := demo_call_first.2.lpf_l,
      hpf_l := demo_call_first.2.hpf_l, lpf_r := demo_call_first.2.lpf_r,
      hpf_r := demo_call_first.2.hpf_r }

/-- The single call on the three samples per channel. -/
def demo_call_single : Except String Unit × process_mem ℚ :=
  audiodsp_process demo_params { buf := [100, 200] ++ [300], odd := false }
    { buf := [5, -7] ++ [9], odd := false }
    { dest := { buf := [0, 0, 0, 0, 0, 0], odd := false }, lpf_l := demo_filter,
      hpf_l := demo_filter, lpf_r := demo_filter, hpf_r := demo_filter }

/-! ## Binary32 arithmetic -/

/-- A binary32 value.  `fin n` is the finite number `n * 2^(-149)`: every finite
binary32 number, normal or subnormal, is an integer multiple of the smallest
subnormal `2^(-149)`.  Zero carries no sign. -/
inductive F32 where
  | fin (n : Int)
  | inf (neg : Bool)
  | nan
  deriving DecidableEq, Repr

/-- Number of binary digits of `n`, for `n < 2^fuel`. -/
def bit_length : Nat → Nat → Nat
  | 0, _ => 0
  | fuel + 1, n => if n = 0 then 0 else bit_length fuel (n / 2) + 1

/-- Rounding to nearest, ties to even, of the rational `num / den`, counted in
units of `2^(-149)`: below `2^24` units the spacing of binary32 is one unit, and
a value of `L > 24` binary digits is rounded to a multiple of `2^(L-24)`; a
result of `2^128` or more becomes an infinity. -/
def F32.round (num : Int) (den : Nat) : F32 :=
  let a := num.natAbs
  let L := bit_length 1024 (a / den)
  let sh := L - 24
  let D := den * 2 ^ sh
  let k := a / D
  let r := a % D
  let k2 := if 2 * r > D ∨ (2 * r = D ∧ k % 2 = 1) then k + 1 else k
  let res := k2 * 2 ^ sh
  if res / 2 ^ 149 ≥ 2 ^ 128 then F32.inf (decide (num < 0))
  else F32.fin (if num < 0 then -(res : Int) else (res : Int))

/-- The binary32 value nearest to the rational `p / q`. -/
def F32.ofRatio (p : Int) (q : Nat) : F32 :=
  F32.round (p * 2 ^ 149) q

/-- Sign bit of a value (`false` for NaN and zero). -/
def F32.sign : F32 → Bool
  | .fin n => decide (n < 0)
  | .inf s => s
  | .nan => false

/-- Negation. -/
def F32.neg : F32 → F32
  | .fin n => .fin (-n)
  | .inf s => .inf (!s)
  | .nan => .nan

/-- Absolute value, `fabsf`. -/
def F32.abs : F32 → F32
  | .fin n => .fin (Int.ofNat n.natAbs)
  | .inf _ => .inf false
  | .nan => .nan

/-- Addition. -/
def F32.add : F32 → F32 → F32
  | .nan, _ => .nan
  | _, .nan => .nan
  | .fin a, .fin b => F32.round (a + b) 1
  | .fin _, .inf s => .inf s
  | .inf s, .fin _ => .inf s
  | .inf s, .inf t => if s = t then .inf s else .nan

/-- Subtraction. -/
def F32.sub (x y : F32) : F32 :=
  F32.add x (F32.neg y)

/-- Multiplication. -/
def F32.mul : F32 → F32 → F32
  | .nan, _ => .nan
  | _, .nan => .nan
  | .fin a, .fin b => F32.round (a * b) (2 ^ 149)
  | .fin a, .inf s => if a = 0 then .nan else .inf (xor (decide (a < 0)) s)
  | .inf s, .fin b => if b = 0 then .nan else .inf (xor s (decide (b < 0)))
  | .inf s, .inf t => .inf (xor s t)

/-- Division. -/
def F32.div : F32 → F32 → F32
  | .nan, _ => .nan
  | _, .nan => .nan
  | .fin a, .fin b =>
    if b = 0 then (if a = 0 then .nan else .inf (decide (a < 0)))
    else F32.round (if b < 0 then -(a * 2 ^ 149) else a * 2 ^ 149) b.natAbs
  | .fin _, .inf _ => .fin 0
  | .inf s, .fin b => .inf (xor s (decide (b < 0)))
  | .inf _, .inf _ => .nan

/-- The comparison `x <= y`, false when either side is NaN. -/
def F32.le : F32 → F32 → Bool
  | .nan, _ => false
  | _, .nan => false
  | .fin a, .fin b => decide (a ≤ b)
  | .fin _, .inf s => !s
  | .inf s, .fin _ => s
  | .inf s, .inf t => s || !t

/-- The comparison `x < y`, false when either side is NaN. -/
def F32.lt : F32 → F32 → Bool
  | .nan, _ => false
  | _, .nan => false
  | .fin a, .fin b => decide (a < b)
  | .fin _, .inf s => !s
  | .inf s, .fin _ => s
  | .inf s, .inf t => s && !t

instance : Add F32 := ⟨F32.add⟩
instance : Sub F32 := ⟨F32.sub⟩
instance : Mul F32 := ⟨F32.mul⟩
instance : Div F32 := ⟨F32.div⟩
instance : Neg F32 := ⟨F32.neg⟩
instance (k : Nat) : OfNat F32 k := ⟨F32.ofRatio k 1⟩
instance : LE F32 := ⟨fun x y => F32.le x y = true⟩
instance : LT F32 := ⟨fun x y => F32.lt x y = true⟩
instance (x y : F32) : Decidable (x ≤ y) := inferInstanceAs (Decidable (F32.le x y = true))
instance (x y : F32) : Decidable (x < y) := inferInstanceAs (Decidable (F32.lt x y = true))

section Arith

variable {α : Type} [Add α] [Sub α] [Mul α] [Div α] [Neg α]
  [OfNat α 0] [OfNat α 1] [OfNat α 2] [OfNat α 10] [OfNat α 20]
  [LE α] [DecidableRel (fun x y : α => x ≤ y)]

/-- The `switch (ftype)` of `biquad_make_new` once more, word for word as in
`biquad_coefficients`, over any type that has the arithmetic operations and
the comparison: instantiated at `F32` it is the computation in binary32. -/
def biquad_coefficients_arith (m : Libm α) (ftype : Int) (Q peakGainDB V K : α) :
    Except String (α × α × α × α × α) :=
  if ftype = LPF then
    let norm := 1 / (1 + K / Q + K * K)
    let a0 := K * K * norm
    let a1 := 2 * a0
    let a2 := a0
    let b1 := 2 * (K * K - 1) * norm
    let b2 := (1 - K / Q + K * K) * norm
    .ok (a0, a1, a2, b1, b2)
  else if ftype = HPF then
    let norm := 1 / (1 + K / Q + K * K)
    let a0 := 1 * norm
    let a1 := -2 * a0
    let a2 := a0
    let b1 := 2 * (K * K - 1) * norm
    let b2 := (1 - K / Q + K * K) * norm
    .ok (a0, a1, a2, b1, b2)
  else if ftype = BPF then
    let norm := 1 / (1 + K / Q + K * K)
    let a0 := K / Q * norm
    let a1 := 0
    let a2 := -a0
    let b1 := 2 * (K * K - 1) * norm
    let b2 := (1 - K / Q + K * K) * norm
    .ok (a0, a1, a2, b1, b2)
  else if ftype = NOTCH then
    let norm := 1 / (1 + K / Q + K * K)
    let a0 := (1 + K * K) * norm
    let a1 := 2 * (K * K - 1) * norm
    let a2 := a0
    let b1 := a1
    let b2 := (1 - K / Q + K * K) * norm
    .ok (a0, a1, a2, b1, b2)
  else if ftype = PEQ then
    if peakGainDB ≥ 0 then
      let norm := 1 / (1 + 1 / Q * K + K * K)
      let a0 := (1 + V / Q * K + K * K) * norm
      let a1 := 2 * (K * K - 1) * norm
      let a2 := (1 - V / Q * K + K * K) * norm
      let b1 := a1
      let b2 := (1 - 1 / Q * K + K * K) * norm
      .ok (a0, a1, a2, b1, b2)
    else
      let norm := 1 / (1 + V / Q * K + K * K)
      let a0 := (1 + 1 / Q * K + K * K) * norm
      let a1 := 2 * (K * K - 1) * norm
      let a2 := (1 - 1 / Q * K + K * K) * norm
      let b1 := a1
      let b2 := (1 - V / Q * K + K * K) * norm
      .ok (a0, a1, a2, b1, b2)
  else if ftype = LSH then
    if peakGainDB ≥ 0 then
      let norm := 1 / (1 + m.sqrtf 2 * K + K * K)
      let a0 := (1 + m.sqrtf (2 * V) * K + V * K * K) * norm
      let a1 := 2 * (V * K * K - 1) * norm
      let a2 := (1 - m.sqrtf (2 * V) * K + V * K * K) * norm
      let b1 := 2 * (K * K - 1) * norm
      let b2 := (1 - m.sqrtf 2 * K + K * K) * norm
      .ok (a0, a1, a2, b1, b2)
    else
      let norm := 1 / (1 + m.sqrtf (2 * V) * K + V * K * K)
      let a0 := (1 + m.sqrtf 2 * K + K * K) * norm
      let a1 := 2 * (K * K - 1) * norm
      let a2 := (1 - m.sqrtf 2 * K + K * K) * norm
      let b1 := 2 * (V * K * K - 1) * norm
      let b2 := (1 - m.sqrtf (2 * V) * K + V * K * K) * norm
      .ok (a0, a1, a2, b1, b2)
  else if ftype = HSH then
    if peakGainDB ≥ 0 then
      let norm := 1 / (1 + m.sqrtf 2 * K + K * K)
      let a0 := (V + m.sqrtf (2 * V) * K + K * K) * norm
      let a1 := 2 * (K * K - V) * norm
      let a2 := (V - m.sqrtf (2 * V) * K + K * K) * norm
      let b1 := 2 * (K * K - 1) * norm
      let b2 := (1 - m.sqrtf 2 * K + K * K) * norm
      .ok (a0, a1, a2, b1, b2)
    else
      let norm := 1 / (V + m.sqrtf (2 * V) * K + K * K)
      let a0 := (1 + m.sqrtf 2 * K + K * K) * norm
      let a1 := 2 * (K * K - 1) * norm
      let a2 := (1 - m.sqrtf 2 * K + K * K) * norm
      let b1 := 2 * (K * K - V) * norm
      let b2 := (V - m.sqrtf (2 * V) * K + K * K) * norm
      .ok (a0, a1, a2, b1, b2)
  else
    .error err_filter_type

/-- The constructor once more, word for word as in `biquad_make_new`, over any
arithmetic; `fabsf` is passed as an argument. -/
def biquad_make_new_arith (fabsf : α → α) (m : Libm α) (ftype : Int) (Fc Q : α)
    (peakGainDB_arg : Option α) : Except String (biquad_state_t α) :=
  let peakGainDB : α :=
    match peakGainDB_arg with
    | none => 0
    | some g => g
  let V := m.powf 10 (fabsf peakGainDB / 20)
  let K := m.tanf (m.M_PI * Fc)
  match biquad_coefficients_arith m ftype Q peakGainDB V K with
  | .error e => .error e
  | .ok (a0, a1, a2, b1, b2) =>
    .ok { a0 := a0, a1 := a1, a2 := a2, b1 := b1, b2 := b2,
          x1 := 0, x2 := 0, y1 := 0, y2 := 0 }

/-- The function `apply_biquad` once more, over any arithmetic. -/
def apply_biquad_arith (state : biquad_state_t α) (input : α) : α × biquad_state_t α :=
  let acc := state.a0 * input + state.a1 * state.x1 + state.a2 * state.x2
  let feedback := state.b1 * state.y1 + state.b2 * state.y2
  let output := acc - feedback
  let s1 := { state with x2 := state.x1 }
  let s2 := { s1 with x1 := input }
  let s3 := { s2 with y2 := s2.y1 }
  let s4 := { s3 with y1 := output }
  (output, s4)

end Arith

/-- The values of the C library at the arguments used below, in binary32; an
argument outside the table gives NaN.  `M_PI` is the binary32 number nearest to
pi; the tangent of an argument below `2^(-12)` is, correctly rounded, the
argument itself; `tanf(0.785398185) = 1`, `tanf(1.41371667) = 6.31375074`;
`powf(x, 0) = 1`, `powf(10, 0.300000012) = 1.99526238`;
`sqrtf(2) = 1.41421354`, `sqrtf(3.99052477) = 1.99762976`. -/
def f32_libm : Libm F32 :=
  { M_PI := F32.ofRatio 13176795 (2 ^ 22),
    tanf := fun x =>
      if F32.abs x < F32.ofRatio 1 (2 ^ 12) then x
      else if x = F32.ofRatio 13176795 (2 ^ 24) then 1
      else if x = F32.ofRatio 11859115 (2 ^ 23) then F32.ofRatio 13240895 (2 ^ 21)
      else F32.nan,
    powf := fun x y =>
      if y = 0 then 1
      else if x = 10 ∧ y = F32.ofRatio 5033165 (2 ^ 24) then F32.ofRatio 8368737 (2 ^ 22)
      else F32.nan,
    sqrtf := fun x =>
      if x = 2 then F32.ofRatio 11863283 (2 ^ 23)
      else if x = F32.ofRatio 8368737 (2 ^ 21) then F32.ofRatio 16757333 (2 ^ 23)
      else F32.nan }

section FieldTheorems

variable {α : Type} [LinearOrderedField α]

/-- C1: `apply_biquad` returns `(a0*input + a1*x1 + a2*x2) - (b1*y1 + b2*y2)`,
and afterwards `x2` is the old `x1`, `x1` the input, `y2` the old `y1` and `y1`
the output. -/
theorem apply_biquad_spec (s : biquad_state_t α) (input : α) :
    (apply_biquad s input).1
        = (s.a0 * input + s.a1 * s.x1 + s.a2 * s.x2) - (s.b1 * s.y1 + s.b2 * s.y2)
      ∧ (apply_biquad s input).2.x2 = s.x1
      ∧ (apply_biquad s input).2.x1 = input
      ∧ (apply_biquad s input).2.y2 = s.y1
      ∧ (apply_biquad s input).2.y1 = (apply_biquad s input).1 :=
  ⟨rfl, rfl, rfl, rfl, rfl⟩

/-- C2: for the four gain-free families the constructor produces the tabulated
coefficients, with `K = tan(pi*Fc)` and `norm = 1/(1 + K/Q + K^2)`, whatever
`peakGainDB` is. -/
theorem biquad_make_new_gain_free (m : Libm α) (Fc Q : α) (g : Option α) :
    let K := m.tanf (m.M_PI * Fc)
    let norm := 1 / (1 + K / Q + K ^ 2)
    let b1 := 2 * (K ^ 2 - 1) * norm
    let b2 := (1 - K / Q + K ^ 2) * norm
    biquad_make_new m LPF Fc Q g
        = .ok { a0 := K ^ 2 * norm, a1 := 2 * (K ^ 2 * norm), a2 := K ^ 2 * norm,
                b1 := b1, b2 := b2, x1 := 0, x2 := 0, y1 := 0, y2 := 0 }
      ∧ biquad_make_new m HPF Fc Q g
        = .ok { a0 := norm, a1 := -2 * norm, a2 := norm,
                b1 := b1, b2 := b2, x1 := 0, x2 := 0, y1 := 0, y2 := 0 }
      ∧ biquad_make_new m BPF Fc Q g
        = .ok { a0 := (K / Q) * norm, a1 := 0, a2 := -((K / Q) * norm),
                b1 := b1, b2 := b2, x1 := 0, x2 := 0, y1 := 0, y2 := 0 }
      ∧ biquad_make_new m NOTCH Fc Q g
        = .ok { a0 := (1 + K ^ 2) * norm, a1 := 2 * (K ^ 2 - 1) * norm,
                a2 := (1 + K ^ 2) * norm,
                b1 := b1, b2 := b2, x1 := 0, x2 := 0, y1 := 0, y2 := 0 }
      ∧ ∀ g2 : Option α,
          biquad_make_new m LPF Fc Q g = biquad_make_new m LPF Fc Q g2
          ∧ biquad_make_new m HPF Fc Q g = biquad_make_new m HPF Fc Q g2
          ∧ biquad_make_new m BPF Fc Q g = biquad_make_new m BPF Fc Q g2
          ∧ biquad_make_new m NOTCH Fc Q g = biquad_make_new m NOTCH Fc Q g2 := by
  intro K norm b1 b2
  refine ⟨?_, ?_, ?_, ?_, ?_⟩
  · simp [biquad_make_new, biquad_coefficients, LPF, K, norm, b1, b2, pow_two]
  · simp [biquad_make_new, biquad_coefficients, LPF, HPF, K, norm, b1, b2, pow_two]
  · simp [biquad_make_new, biquad_coefficients, LPF, HPF, BPF, K, norm, b1, b2, pow_two]
  · simp [biquad_make_new, biquad_coefficients, LPF, HPF, BPF, NOTCH, K, norm, b1, b2,
      pow_two]
  · intro g2
    simp [biquad_make_new, biquad_coefficients, LPF, HPF, BPF, NOTCH]

/-- The `switch` either yields coefficients, for a code in `0..6`, or raises,
for a code outside. -/
theorem biquad_coefficients_cases (m : Libm α) (ftype : Int) (Q g V K : α) :
    ((0 ≤ ftype ∧ ftype ≤ 6) ∧ ∃ c, biquad_coefficients m ftype Q g V K = .ok c)
      ∨ (¬ (0 ≤ ftype ∧ ftype ≤ 6)
          ∧ biquad_coefficients m ftype Q g V K = .error err_filter_type) := by
  unfold biquad_coefficients
  simp only [LPF, HPF, BPF, NOTCH, PEQ, LSH, HSH]
  by_cases h0 : ftype = 0
  · rw [if_pos h0]; exact Or.inl ⟨by omega, _, rfl⟩
  rw [if_neg h0]
  by_cases h1 : ftype = 1
  · rw [if_pos h1]; exact Or.inl ⟨by omega, _, rfl⟩
  rw [if_neg h1]
  by_cases h2 : ftype = 2
  · rw [if_pos h2]; exact Or.inl ⟨by omega, _, rfl⟩
  rw [if_neg h2]
  by_cases h3 : ftype = 3
  · rw [if_pos h3]; exact Or.inl ⟨by omega, _, rfl⟩
  rw [if_neg h3]
  by_cases h4 : ftype = 4
  · rw [if_pos h4]
    by_cases hg : g ≥ 0
    · rw [if_pos hg]; exact Or.inl ⟨by omega, _, rfl⟩
    · rw [if_neg hg]; exact Or.inl ⟨by omega, _, rfl⟩
  rw [if_neg h4]
  by_cases h5 : ftype = 5
  · rw [if_pos h5]
    by_cases hg : g ≥ 0
    · rw [if_pos hg]; exact Or.inl ⟨by omega, _, rfl⟩
    · rw [if_neg hg]; exact Or.inl ⟨by omega, _, rfl⟩
  rw [if_neg h5]
  by_cases h6 : ftype = 6
  · rw [if_pos h6]
    by_cases hg : g ≥ 0
    · rw [if_pos hg]; exact Or.inl ⟨by omega, _, rfl⟩
    · rw [if_neg hg]; exact Or.inl ⟨by omega, _, rfl⟩
  rw [if_neg h6]
  exact Or.inr ⟨by omega, rfl⟩

/-- The constructor either returns a record, for a code in `0..6`, or raises,
for a code outside. -/
theorem biquad_make_new_cases (m : Libm α) (ftype : Int) (Fc Q : α) (g : Option α) :
    ((0 ≤ ftype ∧ ftype ≤ 6) ∧ ∃ f, biquad_make_new m ftype Fc Q g = .ok f)
      ∨ (¬ (0 ≤ ftype ∧ ftype ≤ 6)
          ∧ biquad_make_new m ftype Fc Q g = .error err_filter_type) := by
  unfold biquad_make_new
  simp only
  generalize (match g with | none => (0 : α) | some g => g) = pg
  rcases biquad_coefficients_cases m ftype Q pg (m.powf 10 (|pg| / 20))
      (m.tanf (m.M_PI * Fc)) with ⟨hr, c, hc⟩ | ⟨hr, hc⟩
  · obtain ⟨a0, a1, a2, b1, b2⟩ := c
    rw [hc]
    exact Or.inl ⟨hr, _, rfl⟩
  · rw [hc]
    exact Or.inr ⟨hr, rfl⟩

/-- C3: the constructor raises "Unknown or unsupported filter type" exactly
when the family code is outside `0..6` (`LPF = 0`, ..., `HSH = 6`); for every
code in `0..6` it returns a filter record, and when it raises there is no
record. -/
theorem biquad_make_new_error_iff (m : Libm α) (ftype : Int) (Fc Q : α) (g : Option α) :
    (biquad_make_new m ftype Fc Q g = .error "Unknown or unsupported filter type"
        ↔ ¬ (0 ≤ ftype ∧ ftype ≤ 6))
      ∧ ((0 ≤ ftype ∧ ftype ≤ 6) ↔ ∃ f, biquad_make_new m ftype Fc Q g = .ok f)
      ∧ (LPF = 0 ∧ HPF = 1 ∧ BPF = 2 ∧ NOTCH = 3 ∧ PEQ = 4 ∧ LSH = 5 ∧ HSH = 6) := by
  refine ⟨?_, ?_, rfl, rfl, rfl, rfl, rfl, rfl, rfl⟩
  · rcases biquad_make_new_cases m ftype Fc Q g with ⟨hr, f, hf⟩ | ⟨hr, he⟩
    · rw [hf]
      exact ⟨fun h => (by cases h), fun h => absurd hr h⟩
    · rw [he]
      exact ⟨fun _ => hr, fun _ => rfl⟩
  · rcases biquad_make_new_cases m ftype Fc Q g with ⟨hr, f, hf⟩ | ⟨hr, he⟩
    · exact ⟨fun _ => ⟨f, hf⟩, fun _ => hr⟩
    · rw [he]
      exact ⟨fun h => absurd h hr, fun h => by obtain ⟨f, hf⟩ := h; cases hf⟩

/-- Feeding one more sample to `biquad_run`. -/
theorem biquad_run_range_succ (s : biquad_state_t α) (x : Nat → α) (k : Nat) :
    biquad_run s ((List.range (k + 1)).map x)
      = (apply_biquad (biquad_run s ((List.range k).map x)) (x k)).2 := by
  unfold biquad_run
  rw [List.range_succ, List.map_append, List.foldl_append]
  rfl

/-- Feeding samples through `apply_biquad` never changes the coefficients. -/
theorem biquad_run_coeffs (s : biquad_state_t α) (xs : List α) :
    coeffs (biquad_run s xs) = coeffs s := by
  unfold biquad_run
  induction xs generalizing s with
  | nil => rfl
  | cons x xs ih =>
    rw [List.foldl_cons, ih]
    rfl

end FieldTheorems

/-! ## Stereo mixing pipeline: theorems -/

section ClipTheorems

variable {α : Type} [LinearOrderedField α]

/-- The clipped value is the input clamped to the two bounds. -/
theorem clip16_eq_max_min (v : α) : clip16 v = max (-32768) (min 32767 v) := by
  unfold clip16
  split_ifs with h1 h2
  · rw [min_eq_left (le_of_lt h1), max_eq_right (by norm_num)]
  · rw [min_eq_right (by linarith), max_eq_left (le_of_lt h2)]
  · rw [min_eq_right (not_lt.mp h1), max_eq_right (not_lt.mp h2)]

/-- The clipped value lies between the two bounds. -/
theorem clip16_range (v : α) : -32768 ≤ clip16 v ∧ clip16 v ≤ 32767 := by
  unfold clip16
  split_ifs with h1 h2
  · constructor <;> norm_num
  · constructor <;> norm_num
  · exact ⟨not_lt.mp h2, not_lt.mp h1⟩

end ClipTheorems

section PipelineTheorems

variable {α : Type} [LinearOrderedField α] [FloorRing α]

/-- The element count `len / sizeof(int16_t)` is the number of whole elements. -/
theorem len_div_sizeof (b : mp_buffer_info_t) : b.len / sizeof_int16_t = b.buf.length := by
  unfold mp_buffer_info_t.len sizeof_int16_t
  cases b.odd
  · simp
  · simp
    omega

/-- The processing length is the smaller of the two element counts. -/
theorem n_samples_eq_min (src1 src2 : mp_buffer_info_t) :
    n_samples src1 src2 = min src1.buf.length src2.buf.length := by
  unfold n_samples
  simp only [len_div_sizeof]
  split_ifs with h
  · exact (min_eq_left (le_of_lt h)).symm
  · exact (min_eq_right (not_lt.mp h)).symm

/-- The byte test of the size check, in elements. -/
theorem dest_check_iff (dest : mp_buffer_info_t) (n : Nat) :
    dest.len < n * sizeof_int16_t * 2 ↔ dest.buf.length < 2 * n := by
  unfold mp_buffer_info_t.len sizeof_int16_t
  cases dest.odd <;> simp <;> omega

/-- The call returns normally exactly when `dest` holds `2*n` elements. -/
theorem process_ok_iff (p : process_params α) (src1 src2 : mp_buffer_info_t)
    (mem : process_mem α) :
    (audiodsp_process p src1 src2 mem).1 = .ok ()
      ↔ 2 * min src1.buf.length src2.buf.length ≤ mem.dest.buf.length := by
  unfold audiodsp_process
  simp only [n_samples_eq_min, dest_check_iff]
  by_cases h : mem.dest.buf.length < 2 * min src1.buf.length src2.buf.length
  · rw [if_pos h]
    exact ⟨fun e => (by cases e), fun h2 => absurd h (by omega)⟩
  · rw [if_neg h]
    exact ⟨fun _ => (by omega), fun _ => rfl⟩

/-- The memory after a call that returns normally is the memory after `n`
iterations of the loop, run with the gains of the pan logic. -/
theorem process_ok_mem (p : process_params α) (src1 src2 : mp_buffer_info_t)
    (mem : process_mem α) (hok : (audiodsp_process p src1 src2 mem).1 = .ok ()) :
    (audiodsp_process p src1 src2 mem).2
      = process_loop p (pan_gains p.g1_base p.g2_base p.pan).1
          (pan_gains p.g1_base p.g2_base p.pan).2 src1.buf src2.buf
          (min src1.buf.length src2.buf.length) 0 mem := by
  revert hok
  unfold audiodsp_process
  simp only [n_samples_eq_min]
  split_ifs
  · intro e
    cases e
  · intro _
    rfl

/-- The memory after a call that raises is the memory before it. -/
theorem process_error_mem (p : process_params α) (src1 src2 : mp_buffer_info_t)
    (mem : process_mem α) (herr : (audiodsp_process p src1 src2 mem).1 ≠ .ok ()) :
    (audiodsp_process p src1 src2 mem).2 = mem := by
  revert herr
  unfold audiodsp_process
  simp only
  split_ifs
  · intro _
    rfl
  · intro h
    exact absurd rfl h

/-- C4: with `n = min(len(src1), len(src2))` in 16-bit elements,
`audiodsp_process` raises "Destination buffer too small" exactly when `dest`
holds fewer than `2*n` elements (and returns normally otherwise); when it
raises, the destination buffer and the four filter records are what they were
before the call. -/
theorem audiodsp_process_error_iff (p : process_params α) (src1 src2 : mp_buffer_info_t)
    (mem : process_mem α) :
    let n := min src1.buf.length src2.buf.length
    ((audiodsp_process p src1 src2 mem).1 = .error "Destination buffer too small"
        ↔ mem.dest.buf.length < 2 * n)
      ∧ ((audiodsp_process p src1 src2 mem).1 = .ok () ↔ 2 * n ≤ mem.dest.buf.length)
      ∧ ((audiodsp_process p src1 src2 mem).1 = .error "Destination buffer too small"
          → (audiodsp_process p src1 src2 mem).2 = mem) := by
  intro n
  have hn : n_samples src1 src2 = n := n_samples_eq_min src1 src2
  unfold audiodsp_process
  simp only [hn, dest_check_iff]
  by_cases h : mem.dest.buf.length < 2 * n
  · simp only [if_pos h]
    exact ⟨⟨fun _ => h, fun _ => rfl⟩, ⟨fun e => (by cases e), fun h2 => absurd h (by omega)⟩,
      fun _ => trivial⟩
  · simp only [if_neg h]
    exact ⟨⟨fun e => (by cases e), fun h2 => absurd h2 h⟩,
      ⟨fun _ => (by omega), fun _ => trivial⟩, fun e => (by cases e)⟩

/-- C6: the gains computed by the pan logic of `audiodsp_process`:
`(g1*(1-pan), g2)` for `pan > 0`, `(g1, g2*(1+pan))` for `pan < 0`, `(g1, g2)`
for `pan = 0`; `pan = 1` gives `(0, g2)` and `pan = -1` gives `(g1, 0)`; in no
case are both gains scaled, and for `pan` other than 0 one of them is; a
successful call runs its loop with exactly these gains. -/
theorem pan_gains_spec (g1 g2 pan : α) :
    (0 < pan → pan_gains g1 g2 pan = (g1 * (1 - pan), g2))
      ∧ (pan < 0 → pan_gains g1 g2 pan = (g1, g2 * (1 + pan)))
      ∧ (pan = 0 → pan_gains g1 g2 pan = (g1, g2))
      ∧ pan_gains g1 g2 1 = (0, g2)
      ∧ pan_gains g1 g2 (-1) = (g1, 0)
      ∧ ((pan_gains g1 g2 pan).1 = g1 ∨ (pan_gains g1 g2 pan).2 = g2)
      ∧ (pan ≠ 0 → (pan_gains g1 g2 pan).1 = g1 * (1 - pan)
            ∨ (pan_gains g1 g2 pan).2 = g2 * (1 + pan))
      ∧ ∀ (p : process_params α) (src1 src2 : mp_buffer_info_t) (mem : process_mem α),
          p.g1_base = g1 → p.g2_base = g2 → p.pan = pan →
          (audiodsp_process p src1 src2 mem).1 = .ok () →
          (audiodsp_process p src1 src2 mem).2
            = process_loop p (pan_gains g1 g2 pan).1 (pan_gains g1 g2 pan).2
                src1.buf src2.buf (min src1.buf.length src2.buf.length) 0 mem := by
  refine ⟨?_, ?_, ?_, ?_, ?_, ?_, ?_, ?_⟩
  · intro h
    simp [pan_gains, h]
  · intro h
    simp [pan_gains, h, not_lt.mpr (le_of_lt h)]
  · intro h
    simp [pan_gains, h]
  · simp [pan_gains]
  · simp [pan_gains]
  · unfold pan_gains
    split_ifs <;> simp
  · intro h
    rcases lt_or_gt_of_ne h with h | h
    · right
      simp [pan_gains, h, not_lt.mpr (le_of_lt h)]
    · left
      simp [pan_gains, h]
  · intro p src1 src2 mem h1 h2 h3 hok
    subst h1 h2 h3
    exact process_ok_mem p src1 src2 mem hok

/-- A value in the 16-bit range is stored unchanged. -/
theorem wrap_int16_of_range (z : Int) (h1 : -32768 ≤ z) (h2 : z ≤ 32767) :
    wrap_int16 z = z := by
  unfold wrap_int16
  omega

/-- Truncation of a value between the two bounds stays between them. -/
theorem trunc_range (v : α) (h1 : -32768 ≤ v) (h2 : v ≤ 32767) :
    -32768 ≤ trunc_toward_zero v ∧ trunc_toward_zero v ≤ 32767 := by
  unfold trunc_toward_zero
  split_ifs with h
  · constructor
    · have := Int.floor_nonneg.mpr h
      omega
    · have h3 : ((⌊v⌋ : Int) : α) ≤ ((32767 : Int) : α) := by
        have := Int.floor_le v
        push_cast
        linarith
      exact Int.cast_le.mp h3
  · constructor
    · have h3 : ((-32768 : Int) : α) ≤ ((⌈v⌉ : Int) : α) := by
        have := Int.le_ceil v
        push_cast
        linarith
      exact Int.cast_le.mp h3
    · have : ⌈v⌉ ≤ 0 := Int.ceil_le.mpr (by push_cast; exact le_of_lt (not_le.mp h))
      omega

/-- C7: the clipping step followed by the cast stores
`trunc_toward_zero (max (-32768) (min 32767 v))`; the stored sample lies in
`[-32768, 32767]`; above `32767` it is `32767`, below `-32768` it is `-32768`,
in between it is `v` truncated toward zero; `40000` gives `32767`, `-40000`
gives `-32768` and `-0.7` gives `0`. -/
theorem clip16_cast_spec (v : α) :
    cast_int16 (clip16 v) = trunc_toward_zero (max (-32768) (min 32767 v))
      ∧ (-32768 ≤ cast_int16 (clip16 v) ∧ cast_int16 (clip16 v) ≤ 32767)
      ∧ (32767 < v → cast_int16 (clip16 v) = 32767)
      ∧ (v < -32768 → cast_int16 (clip16 v) = -32768)
      ∧ (-32768 ≤ v ∧ v ≤ 32767 → cast_int16 (clip16 v) = trunc_toward_zero v)
      ∧ cast_int16 (clip16 (40000 : α)) = 32767
      ∧ cast_int16 (clip16 (-40000 : α)) = -32768
      ∧ cast_int16 (clip16 (-7 / 10 : α)) = 0 := by
  have hr := clip16_range v
  have ht := trunc_range (clip16 v) hr.1 hr.2
  have hc : cast_int16 (clip16 v) = trunc_toward_zero (clip16 v) :=
    wrap_int16_of_range _ ht.1 ht.2
  have hhi : ∀ w : α, 32767 < w → cast_int16 (clip16 w) = 32767 := by
    intro w hw
    simp [cast_int16, clip16, hw, trunc_toward_zero, wrap_int16]
  have hlo : ∀ w : α, w < -32768 → cast_int16 (clip16 w) = -32768 := by
    intro w hw
    have h1 : ¬ (32767 < w) := by
      intro h
      linarith
    have h2 : ¬ ((0 : α) ≤ -32768) := by norm_num
    have h3 : ⌈(-32768 : α)⌉ = -32768 := by
      have := Int.ceil_intCast (α := α) (-32768)
      push_cast at this
      exact this
    simp [cast_int16, clip16, hw, h1, trunc_toward_zero, wrap_int16, h2, h3]
  refine ⟨?_, ?_, hhi v, hlo v, ?_, hhi _ (by norm_num), hlo _ (by norm_num), ?_⟩
  · rw [hc, clip16_eq_max_min]
  · rw [hc]
    exact ht
  · intro h
    rw [hc]
    have : clip16 v = v := by
      unfold clip16
      rw [if_neg (not_lt.mpr h.2), if_neg (not_lt.mpr h.1)]
    rw [this]
  · have h1 : ¬ ((32767 : α) < -7 / 10) := by norm_num
    have h2 : ¬ ((-7 / 10 : α) < -32768) := by norm_num
    have h3 : ¬ ((0 : α) ≤ -7 / 10) := by norm_num
    have h4 : ⌈(-7 / 10 : α)⌉ = 0 := by
      rw [Int.ceil_eq_iff]
      constructor <;> norm_num
    simp only [cast_int16, clip16, gt_iff_lt, if_neg h1, if_neg h2, trunc_toward_zero,
      if_neg h3, h4]
    rfl

/-- The loop with one more iteration is the loop followed by the body at the
last index. -/
theorem process_loop_succ (p : process_params α) (gl gr : α) (s1 s2 : List Int)
    (k i : Nat) (mem : process_mem α) :
    process_loop p gl gr s1 s2 (k + 1) i mem
      = process_sample p gl gr s1 s2 (i + k) (process_loop p gl gr s1 s2 k i mem) := by
  induction k generalizing i mem with
  | zero => rfl
  | succ k ih =>
    show process_loop p gl gr s1 s2 (k + 1) (i + 1) (process_sample p gl gr s1 s2 i mem) = _
    rw [ih]
    have h : i + 1 + k = i + (k + 1) := by omega
    rw [h]
    rfl

/-- After `k` iterations each filter record is the result of feeding it the
first `k` samples of its channel. -/
theorem process_loop_filters (p : process_params α) (gl gr : α) (s1 s2 : List Int)
    (k : Nat) (mem : process_mem α) :
    (process_loop p gl gr s1 s2 k 0 mem).lpf_l
        = biquad_run mem.lpf_l ((List.range k).map (fun j => ((s1.getD j 0 : Int) : α)))
      ∧ (process_loop p gl gr s1 s2 k 0 mem).hpf_l
        = biquad_run mem.hpf_l ((List.range k).map (fun j => ((s1.getD j 0 : Int) : α)))
      ∧ (process_loop p gl gr s1 s2 k 0 mem).lpf_r
        = biquad_run mem.lpf_r ((List.range k).map (fun j => ((s2.getD j 0 : Int) : α)))
      ∧ (process_loop p gl gr s1 s2 k 0 mem).hpf_r
        = biquad_run mem.hpf_r ((List.range k).map (fun j => ((s2.getD j 0 : Int) : α))) := by
  induction k with
  | zero => exact ⟨rfl, rfl, rfl, rfl⟩
  | succ k ih =>
    obtain ⟨h1, h2, h3, h4⟩ := ih
    rw [process_loop_succ, biquad_run_range_succ, biquad_run_range_succ,
      biquad_run_range_succ, biquad_run_range_succ, ← h1, ← h2, ← h3, ← h4, Nat.zero_add]
    exact ⟨rfl, rfl, rfl, rfl⟩

/-- The loop body keeps the size of the destination buffer. -/
theorem process_sample_dest_length (p : process_params α) (gl gr : α) (s1 s2 : List Int)
    (i : Nat) (mem : process_mem α) :
    (process_sample p gl gr s1 s2 i mem).dest.buf.length = mem.dest.buf.length
      ∧ (process_sample p gl gr s1 s2 i mem).dest.odd = mem.dest.odd := by
  simp [process_sample]

/-- The loop keeps the size of the destination buffer. -/
theorem process_loop_dest_length (p : process_params α) (gl gr : α) (s1 s2 : List Int)
    (k i : Nat) (mem : process_mem α) :
    (process_loop p gl gr s1 s2 k i mem).dest.buf.length = mem.dest.buf.length
      ∧ (process_loop p gl gr s1 s2 k i mem).dest.odd = mem.dest.odd := by
  induction k generalizing i mem with
  | zero => exact ⟨rfl, rfl⟩
  | succ k ih =>
    show (process_loop p gl gr s1 s2 k (i + 1) (process_sample p gl gr s1 s2 i mem)).dest.buf.length
        = _ ∧ _
    have h := process_sample_dest_length p gl gr s1 s2 i mem
    have h2 := ih (i + 1) (process_sample p gl gr s1 s2 i mem)
    exact ⟨h2.1.trans h.1, h2.2.trans h.2⟩

/-- The loop body at index `i` leaves every destination element other than
`2*i` and `2*i+1` alone. -/
theorem process_sample_dest_other (p : process_params α) (gl gr : α) (s1 s2 : List Int)
    (i : Nat) (mem : process_mem α) (idx : Nat) (h1 : idx ≠ i * 2) (h2 : idx ≠ i * 2 + 1) :
    (process_sample p gl gr s1 s2 i mem).dest.buf[idx]? = mem.dest.buf[idx]? := by
  simp only [process_sample]
  rw [List.getElem?_set_ne (Ne.symm h2), List.getElem?_set_ne (Ne.symm h1)]

/-- The two elements written by the loop body at index `i`. -/
theorem process_sample_dest_written (p : process_params α) (gl gr : α) (s1 s2 : List Int)
    (i : Nat) (mem : process_mem α) (h : i * 2 + 1 < mem.dest.buf.length) :
    (process_sample p gl gr s1 s2 i mem).dest.buf[i * 2]?
        = some (cast_int16 (clip16
            (((apply_biquad mem.lpf_l ((s1.getD i 0 : Int) : α)).1 * p.bass_l
              + (apply_biquad mem.hpf_l ((s1.getD i 0 : Int) : α)).1 * p.treble_l)
              * gl * p.master)))
      ∧ (process_sample p gl gr s1 s2 i mem).dest.buf[i * 2 + 1]?
        = some (cast_int16 (clip16
            (((apply_biquad mem.lpf_r ((s2.getD i 0 : Int) : α)).1 * p.bass_r
              + (apply_biquad mem.hpf_r ((s2.getD i 0 : Int) : α)).1 * p.treble_r)
              * gr * p.master))) := by
  simp only [process_sample]
  constructor
  · rw [List.getElem?_set_ne (by omega), List.getElem?_set_self (by omega)]
  · rw [List.getElem?_set_self (by rw [List.length_set]; exact h)]

/-- Elements below `2*j` are final after `j` iterations. -/
theorem process_loop_dest_settled (p : process_params α) (gl gr : α) (s1 s2 : List Int)
    (j k : Nat) (hjk : j ≤ k) (mem : process_mem α) (idx : Nat) (h : idx < 2 * j) :
    (process_loop p gl gr s1 s2 k 0 mem).dest.buf[idx]?
      = (process_loop p gl gr s1 s2 j 0 mem).dest.buf[idx]? := by
  induction k with
  | zero =>
    have : j = 0 := by omega
    subst this
    rfl
  | succ k ih =>
    rcases Nat.eq_or_lt_of_le hjk with h1 | h1
    · subst h1
      rfl
    · rw [process_loop_succ, process_sample_dest_other _ _ _ _ _ _ _ _ (by omega) (by omega)]
      exact ih (by omega)

/-- The loop body at index `i` reads only element `i` of each source. -/
theorem process_sample_congr (p : process_params α) (gl gr : α) (s1 s2 t1 t2 : List Int)
    (i : Nat) (mem : process_mem α) (h1 : t1.getD i 0 = s1.getD i 0)
    (h2 : t2.getD i 0 = s2.getD i 0) :
    process_sample p gl gr t1 t2 i mem = process_sample p gl gr s1 s2 i mem := by
  unfold process_sample
  rw [h1, h2]

/-- The loop from index `i` for `k` iterations reads only the elements
`i, ..., i+k-1` of each source. -/
theorem process_loop_congr (p : process_params α) (gl gr : α) (s1 s2 t1 t2 : List Int)
    (k i : Nat) (mem : process_mem α)
    (h1 : ∀ j, i ≤ j → j < i + k → t1.getD j 0 = s1.getD j 0)
    (h2 : ∀ j, i ≤ j → j < i + k → t2.getD j 0 = s2.getD j 0) :
    process_loop p gl gr t1 t2 k i mem = process_loop p gl gr s1 s2 k i mem := by
  induction k generalizing i mem with
  | zero => rfl
  | succ k ih =>
    show process_loop p gl gr t1 t2 k (i + 1) (process_sample p gl gr t1 t2 i mem)
      = process_loop p gl gr s1 s2 k (i + 1) (process_sample p gl gr s1 s2 i mem)
    rw [process_sample_congr p gl gr s1 s2 t1 t2 i mem (h1 i (le_refl i) (by omega))
      (h2 i (le_refl i) (by omega))]
    exact ih (i + 1) _ (fun j hj hj2 => h1 j (by omega) (by omega))
      (fun j hj hj2 => h2 j (by omega) (by omega))

/-- Lists with the same first `n` elements have the same element at each index
below `n`. -/
theorem getD_eq_of_take_eq (s t : List Int) (n j : Nat) (h : t.take n = s.take n)
    (hj : j < n) : t.getD j 0 = s.getD j 0 := by
  have h1 : (t.take n)[j]? = (s.take n)[j]? := by rw [h]
  rw [List.getElem?_take_of_lt hj, List.getElem?_take_of_lt hj] at h1
  simp only [List.getD_eq_getElem?_getD, h1]

/-- The first `n` samples of a buffer that has at least `n`, read by index. -/
theorem map_range_getD {β : Type} [LinearOrderedField β] (s : List Int) (n : Nat)
    (hn : n ≤ s.length) :
    (List.range n).map (fun j => ((s.getD j 0 : Int) : β))
      = (s.take n).map (fun z => ((z : Int) : β)) := by
  apply List.ext_getElem?
  intro j
  by_cases hj : j < n
  · have hj2 : j < s.length := by omega
    simp [List.getElem?_map, List.getElem?_range hj, List.getElem?_take_of_lt hj,
      List.getElem?_eq_getElem hj2]
  · have h1 : ((List.range n).map (fun j => ((s.getD j 0 : Int) : β)))[j]? = none := by
      apply List.getElem?_eq_none
      simp
      omega
    have h2 : ((s.take n).map (fun z => ((z : Int) : β)))[j]? = none := by
      apply List.getElem?_eq_none
      simp
      omega
    rw [h1, h2]

/-- C8: `audiodsp_process` handles exactly `n = min(len(src1), len(src2))`
samples and does not depend on anything past them: two calls whose sources
have the same lengths and the same first `n` elements, all other arguments
being equal, give the same outcome, the same destination contents and the
same four filter records; after a normal return each filter has been fed
exactly the first `n` samples of its channel. -/
theorem audiodsp_process_ignores_tail (p : process_params α)
    (src1 src2 alt1 alt2 : mp_buffer_info_t) (mem : process_mem α)
    (hl1 : alt1.len = src1.len) (hl2 : alt2.len = src2.len)
    (h1 : alt1.buf.take (min src1.buf.length src2.buf.length)
            = src1.buf.take (min src1.buf.length src2.buf.length))
    (h2 : alt2.buf.take (min src1.buf.length src2.buf.length)
            = src2.buf.take (min src1.buf.length src2.buf.length)) :
    audiodsp_process p alt1 alt2 mem = audiodsp_process p src1 src2 mem
      ∧ ((audiodsp_process p src1 src2 mem).1 = .ok () →
          let n := min src1.buf.length src2.buf.length
          let first_l : List α := (src1.buf.take n).map (fun z => ((z : Int) : α))
          let first_r : List α := (src2.buf.take n).map (fun z => ((z : Int) : α))
          (audiodsp_process p src1 src2 mem).2.lpf_l = biquad_run mem.lpf_l first_l
            ∧ (audiodsp_process p src1 src2 mem).2.hpf_l = biquad_run mem.hpf_l first_l
            ∧ (audiodsp_process p src1 src2 mem).2.lpf_r = biquad_run mem.lpf_r first_r
            ∧ (audiodsp_process p src1 src2 mem).2.hpf_r = biquad_run mem.hpf_r first_r) := by
  constructor
  · have e1 : alt1.buf.length = src1.buf.length := by
      rw [← len_div_sizeof, ← len_div_sizeof, hl1]
    have e2 : alt2.buf.length = src2.buf.length := by
      rw [← len_div_sizeof, ← len_div_sizeof, hl2]
    have hn : n_samples alt1 alt2 = n_samples src1 src2 := by
      rw [n_samples_eq_min, n_samples_eq_min, e1, e2]
    unfold audiodsp_process
    simp only [hn]
    split_ifs
    · rfl
    · rw [process_loop_congr _ _ _ src1.buf src2.buf alt1.buf alt2.buf]
      · intro j _ hj
        rw [n_samples_eq_min] at hj
        exact getD_eq_of_take_eq _ _ _ j h1 (by omega)
      · intro j _ hj
        rw [n_samples_eq_min] at hj
        exact getD_eq_of_take_eq _ _ _ j h2 (by omega)
  · intro hok n first_l first_r
    rw [process_ok_mem p src1 src2 mem hok]
    have hf := process_loop_filters p (pan_gains p.g1_base p.g2_base p.pan).1
      (pan_gains p.g1_base p.g2_base p.pan).2 src1.buf src2.buf n mem
    rw [map_range_getD src1.buf n (Nat.min_le_left _ _),
      map_range_getD src2.buf n (Nat.min_le_right _ _)] at hf
    exact hf

/-- The loop body keeps the coefficients of the four filters. -/
theorem process_sample_coeffs (p : process_params α) (gl gr : α) (s1 s2 : List Int)
    (i : Nat) (mem : process_mem α) :
    coeffs (process_sample p gl gr s1 s2 i mem).lpf_l = coeffs mem.lpf_l
      ∧ coeffs (process_sample p gl gr s1 s2 i mem).hpf_l = coeffs mem.hpf_l
      ∧ coeffs (process_sample p gl gr s1 s2 i mem).lpf_r = coeffs mem.lpf_r
      ∧ coeffs (process_sample p gl gr s1 s2 i mem).hpf_r = coeffs mem.hpf_r :=
  ⟨rfl, rfl, rfl, rfl⟩

/-- The loop keeps the coefficients of the four filters. -/
theorem process_loop_coeffs (p : process_params α) (gl gr : α) (s1 s2 : List Int)
    (k i : Nat) (mem : process_mem α) :
    coeffs (process_loop p gl gr s1 s2 k i mem).lpf_l = coeffs mem.lpf_l
      ∧ coeffs (process_loop p gl gr s1 s2 k i mem).hpf_l = coeffs mem.hpf_l
      ∧ coeffs (process_loop p gl gr s1 s2 k i mem).lpf_r = coeffs mem.lpf_r
      ∧ coeffs (process_loop p gl gr s1 s2 k i mem).hpf_r = coeffs mem.hpf_r := by
  induction k generalizing i mem with
  | zero => exact ⟨rfl, rfl, rfl, rfl⟩
  | succ k ih =>
    have h := ih (i + 1) (process_sample p gl gr s1 s2 i mem)
    have h2 := process_sample_coeffs p gl gr s1 s2 i mem
    exact ⟨h.1.trans h2.1, h.2.1.trans h2.2.1, h.2.2.1.trans h2.2.2.1,
      h.2.2.2.trans h2.2.2.2⟩

/-- C10: `apply_biquad` leaves `a0, a1, a2, b1, b2` unchanged, for one sample
and for any run of samples, and `audiodsp_process`, whether it returns or
raises and whatever the number of samples, leaves the coefficients of all four
filters unchanged. -/
theorem coefficients_invariant (s : biquad_state_t α) (input : α) (xs : List α)
    (p : process_params α) (src1 src2 : mp_buffer_info_t) (mem : process_mem α) :
    coeffs (apply_biquad s input).2 = coeffs s
      ∧ coeffs (biquad_run s xs) = coeffs s
      ∧ coeffs (audiodsp_process p src1 src2 mem).2.lpf_l = coeffs mem.lpf_l
      ∧ coeffs (audiodsp_process p src1 src2 mem).2.hpf_l = coeffs mem.hpf_l
      ∧ coeffs (audiodsp_process p src1 src2 mem).2.lpf_r = coeffs mem.lpf_r
      ∧ coeffs (audiodsp_process p src1 src2 mem).2.hpf_r = coeffs mem.hpf_r := by
  refine ⟨rfl, biquad_run_coeffs s xs, ?_⟩
  unfold audiodsp_process
  simp only
  split_ifs
  · exact ⟨rfl, rfl, rfl, rfl⟩
  · exact process_loop_coeffs _ _ _ _ _ _ _ _

/-- The value of each destination element below `2*k` after `k` iterations. -/
theorem process_loop_dest_at (p : process_params α) (gl gr : α) (s1 s2 : List Int)
    (k : Nat) (mem : process_mem α) (i : Nat) (hi : i < k)
    (hsz : 2 * k ≤ mem.dest.buf.length) :
    (process_loop p gl gr s1 s2 k 0 mem).dest.buf[2 * i]?
        = some (mix_sample (biquad_output mem.lpf_l (src_input s1) i)
            (biquad_output mem.hpf_l (src_input s1) i) p.bass_l p.treble_l gl p.master)
      ∧ (process_loop p gl gr s1 s2 k 0 mem).dest.buf[2 * i + 1]?
        = some (mix_sample (biquad_output mem.lpf_r (src_input s2) i)
            (biquad_output mem.hpf_r (src_input s2) i) p.bass_r p.treble_r gr p.master) := by
  have hlen := (process_loop_dest_length p gl gr s1 s2 i 0 mem).1
  have hf := process_loop_filters p gl gr s1 s2 i mem
  have hw := process_sample_dest_written p gl gr s1 s2 i
    (process_loop p gl gr s1 s2 i 0 mem) (by omega)
  rw [hf.1, hf.2.1, hf.2.2.1, hf.2.2.2] at hw
  have hs := process_loop_succ p gl gr s1 s2 i 0 mem
  rw [Nat.zero_add] at hs
  rw [← hs] at hw
  have e1 : 2 * i = i * 2 := by omega
  constructor
  · rw [process_loop_dest_settled p gl gr s1 s2 (i + 1) k (by omega) mem _ (by omega), e1]
    exact hw.1
  · rw [process_loop_dest_settled p gl gr s1 s2 (i + 1) k (by omega) mem _ (by omega), e1]
    exact hw.2

/-- The loop from index `i` for `k` iterations leaves every destination element
at `2*(i+k)` or beyond alone. -/
theorem process_loop_dest_beyond (p : process_params α) (gl gr : α) (s1 s2 : List Int)
    (k i : Nat) (mem : process_mem α) (idx : Nat) (h : 2 * (i + k) ≤ idx) :
    (process_loop p gl gr s1 s2 k i mem).dest.buf[idx]? = mem.dest.buf[idx]? := by
  induction k generalizing i mem with
  | zero => rfl
  | succ k ih =>
    show (process_loop p gl gr s1 s2 k (i + 1) (process_sample p gl gr s1 s2 i mem)).dest.buf[idx]?
      = _
    rw [ih (i + 1) _ (by omega)]
    exact process_sample_dest_other p gl gr s1 s2 i mem idx (by omega) (by omega)

/-- C20: a successful call leaves every destination element at index `2*n` or
beyond, and the size of the destination, as they were; the elements below
`2*n` are all overwritten (their new values do not depend on the old
contents); and when `n = 0` the destination and the four filter records are
unchanged. -/
theorem audiodsp_process_frame (p : process_params α) (src1 src2 : mp_buffer_info_t)
    (mem : process_mem α) (hok : (audiodsp_process p src1 src2 mem).1 = .ok ()) :
    let n := min src1.buf.length src2.buf.length
    (∀ idx, 2 * n ≤ idx →
        (audiodsp_process p src1 src2 mem).2.dest.buf[idx]? = mem.dest.buf[idx]?)
      ∧ (audiodsp_process p src1 src2 mem).2.dest.buf.length = mem.dest.buf.length
      ∧ (audiodsp_process p src1 src2 mem).2.dest.odd = mem.dest.odd
      ∧ (∀ old : List Int, old.length = mem.dest.buf.length →
          ∀ idx, idx < 2 * n →
            (audiodsp_process p src1 src2
                { mem with dest := { mem.dest with buf := old } }).2.dest.buf[idx]?
              = (audiodsp_process p src1 src2 mem).2.dest.buf[idx]?)
      ∧ (n = 0 → (audiodsp_process p src1 src2 mem).2 = mem) := by
  intro n
  have hsz : 2 * n ≤ mem.dest.buf.length := (process_ok_iff p src1 src2 mem).mp hok
  rw [process_ok_mem p src1 src2 mem hok]
  refine ⟨?_, ?_, ?_, ?_, ?_⟩
  · intro idx hidx
    exact process_loop_dest_beyond _ _ _ _ _ n 0 mem idx (by omega)
  · exact (process_loop_dest_length _ _ _ _ _ n 0 mem).1
  · exact (process_loop_dest_length _ _ _ _ _ n 0 mem).2
  · intro old hold idx hidx
    have hok2 : (audiodsp_process p src1 src2
        { mem with dest := { mem.dest with buf := old } }).1 = .ok () :=
      (process_ok_iff p src1 src2 _).mpr (by
        show 2 * n ≤ old.length
        omega)
    rw [process_ok_mem p src1 src2 _ hok2]
    obtain ⟨i, hi⟩ : ∃ i, idx = 2 * i ∨ idx = 2 * i + 1 := ⟨idx / 2, by omega⟩
    have h1 := process_loop_dest_at p (pan_gains p.g1_base p.g2_base p.pan).1
      (pan_gains p.g1_base p.g2_base p.pan).2 src1.buf src2.buf n mem i (by omega) hsz
    have h2 := process_loop_dest_at p (pan_gains p.g1_base p.g2_base p.pan).1
      (pan_gains p.g1_base p.g2_base p.pan).2 src1.buf src2.buf n
      { mem with dest := { mem.dest with buf := old } } i (by omega) (by
        show 2 * n ≤ old.length
        omega)
    rcases hi with hi | hi <;> subst hi
    · rw [h1.1]
      exact h2.1
    · rw [h1.2]
      exact h2.2
  · intro h0
    show process_loop _ _ _ _ _ n 0 mem = mem
    rw [h0]
    rfl

/-- Feeding a concatenation is feeding its two parts in turn. -/
theorem biquad_run_append {β : Type} [LinearOrderedField β] (s : biquad_state_t β)
    (l1 l2 : List β) : biquad_run s (l1 ++ l2) = biquad_run (biquad_run s l1) l2 := by
  unfold biquad_run
  rw [List.foldl_append]

/-- The output number `i` depends on the input sequence up to index `i` only. -/
theorem biquad_output_congr {β : Type} [LinearOrderedField β] (s : biquad_state_t β)
    (x y : Nat → β) (i : Nat) (h : ∀ j, j ≤ i → x j = y j) :
    biquad_output s x i = biquad_output s y i := by
  unfold biquad_output
  have e : (List.range i).map x = (List.range i).map y := by
    apply List.map_congr_left
    intro j hj
    exact h j (le_of_lt (List.mem_range.mp hj))
  rw [e, h i (le_refl i)]

/-- The output number `a + i` is the output number `i` of the filter that has
already been fed the first `a` samples, on the rest of the sequence. -/
theorem biquad_output_shift {β : Type} [LinearOrderedField β] (s : biquad_state_t β)
    (x : Nat → β) (a i : Nat) :
    biquad_output s x (a + i)
      = biquad_output (biquad_run s ((List.range a).map x)) (fun j => x (a + j)) i := by
  unfold biquad_output
  rw [List.range_add, List.map_append, List.map_map, biquad_run_append]
  rfl

/-- Reading a concatenation below the length of its first part. -/
theorem src_input_append_left {β : Type} [LinearOrderedField β] (xs ys : List Int) (j : Nat)
    (hj : j < xs.length) : (src_input (xs ++ ys) j : β) = src_input xs j := by
  unfold src_input
  rw [List.getD_eq_getElem?_getD, List.getD_eq_getElem?_getD, List.getElem?_append_left hj]

/-- Reading a concatenation beyond its first part. -/
theorem src_input_append_right {β : Type} [LinearOrderedField β] (xs ys : List Int)
    (j : Nat) : (src_input (xs ++ ys) (xs.length + j) : β) = src_input ys j := by
  unfold src_input
  rw [List.getD_eq_getElem?_getD, List.getD_eq_getElem?_getD,
    List.getElem?_append_right (Nat.le_add_right _ _), Nat.add_sub_cancel_left]

/-- Outputs of the second call of a split run, seen from the single run. -/
theorem biquad_output_split {β : Type} [LinearOrderedField β] (s : biquad_state_t β)
    (xs ys : List Int) (i : Nat) :
    biquad_output s (src_input (xs ++ ys)) (xs.length + i)
      = biquad_output (biquad_run s ((List.range xs.length).map (src_input xs)))
          (src_input ys) i := by
  rw [biquad_output_shift]
  have e : (List.range xs.length).map (src_input (xs ++ ys) : Nat → β)
      = (List.range xs.length).map (src_input xs) := by
    apply List.map_congr_left
    intro j hj
    exact src_input_append_left xs ys j (List.mem_range.mp hj)
  rw [e]
  apply biquad_output_congr
  intro j _
  exact src_input_append_right xs ys j

/-- Final record of a split run, seen from the single run. -/
theorem biquad_run_split {β : Type} [LinearOrderedField β] (s : biquad_state_t β)
    (xs ys : List Int) (k : Nat) :
    biquad_run s ((List.range (xs.length + k)).map (src_input (xs ++ ys)))
      = biquad_run (biquad_run s ((List.range xs.length).map (src_input xs)))
          ((List.range k).map (src_input ys)) := by
  rw [List.range_add, List.map_append, List.map_map, biquad_run_append]
  have e : (List.range xs.length).map (src_input (xs ++ ys) : Nat → β)
      = (List.range xs.length).map (src_input xs) := by
    apply List.map_congr_left
    intro j hj
    exact src_input_append_left xs ys j (List.mem_range.mp hj)
  have e2 : (List.range k).map ((src_input (xs ++ ys) : Nat → β) ∘ fun j => xs.length + j)
      = (List.range k).map (src_input ys) := by
    apply List.map_congr_left
    intro j _
    exact src_input_append_right xs ys j
  rw [e, e2]

/-- The filter records after `k` iterations, with the inputs as sequences. -/
theorem process_loop_filters_src (p : process_params α) (gl gr : α) (s1 s2 : List Int)
    (k : Nat) (mem : process_mem α) :
    (process_loop p gl gr s1 s2 k 0 mem).lpf_l
        = biquad_run mem.lpf_l ((List.range k).map (src_input s1))
      ∧ (process_loop p gl gr s1 s2 k 0 mem).hpf_l
        = biquad_run mem.hpf_l ((List.range k).map (src_input s1))
      ∧ (process_loop p gl gr s1 s2 k 0 mem).lpf_r
        = biquad_run mem.lpf_r ((List.range k).map (src_input s2))
      ∧ (process_loop p gl gr s1 s2 k 0 mem).hpf_r
        = biquad_run mem.hpf_r ((List.range k).map (src_input s2)) :=
  process_loop_filters p gl gr s1 s2 k mem

/-- The loop over two concatenated sources, against the loop over the first
parts followed by the loop over the second parts: same outputs, in order, and
same final filter records. -/
theorem process_loop_split (p : process_params α) (gl gr : α) (xs1 ys1 xs2 ys2 : List Int)
    (memA memC : process_mem α) (dB : mp_buffer_info_t)
    (hx : xs1.length = xs2.length)
    (hfl : memC.lpf_l = memA.lpf_l) (hfh : memC.hpf_l = memA.hpf_l)
    (hrl : memC.lpf_r = memA.lpf_r) (hrh : memC.hpf_r = memA.hpf_r)
    (hA : 2 * xs1.length ≤ memA.dest.buf.length) (hB : 2 * ys1.length ≤ dB.buf.length)
    (hC : 2 * (xs1.length + ys1.length) ≤ memC.dest.buf.length) :
    let outA := process_loop p gl gr xs1 xs2 xs1.length 0 memA
    let outB := process_loop p gl gr ys1 ys2 ys1.length 0
      { dest := dB, lpf_l := outA.lpf_l, hpf_l := outA.hpf_l, lpf_r := outA.lpf_r,
        hpf_r := outA.hpf_r }
    let outC := process_loop p gl gr (xs1 ++ ys1) (xs2 ++ ys2) (xs1.length + ys1.length) 0 memC
    outA.dest.buf.take (2 * xs1.length) ++ outB.dest.buf.take (2 * ys1.length)
        = outC.dest.buf.take (2 * (xs1.length + ys1.length))
      ∧ outB.lpf_l = outC.lpf_l ∧ outB.hpf_l = outC.hpf_l
      ∧ outB.lpf_r = outC.lpf_r ∧ outB.hpf_r = outC.hpf_r := by
  intro outA outB outC
  have hfA := process_loop_filters_src p gl gr xs1 xs2 xs1.length memA
  have hfB := process_loop_filters_src p gl gr ys1 ys2 ys1.length
    { dest := dB, lpf_l := outA.lpf_l, hpf_l := outA.hpf_l, lpf_r := outA.lpf_r,
      hpf_r := outA.hpf_r }
  have hfC := process_loop_filters_src p gl gr (xs1 ++ ys1) (xs2 ++ ys2)
    (xs1.length + ys1.length) memC
  have hlA : outA.dest.buf.length = memA.dest.buf.length :=
    (process_loop_dest_length p gl gr xs1 xs2 xs1.length 0 memA).1
  have hlB : outB.dest.buf.length = dB.buf.length :=
    (process_loop_dest_length p gl gr ys1 ys2 ys1.length 0 _).1
  have hlC : outC.dest.buf.length = memC.dest.buf.length :=
    (process_loop_dest_length p gl gr _ _ _ 0 memC).1
  have hCl : outC.lpf_l = outB.lpf_l := by
    rw [hfC.1, hfB.1, hfA.1, hfl]
    exact biquad_run_split _ xs1 ys1 ys1.length
  have hCh : outC.hpf_l = outB.hpf_l := by
    rw [hfC.2.1, hfB.2.1, hfA.2.1, hfh]
    exact biquad_run_split _ xs1 ys1 ys1.length
  have hCrl : outC.lpf_r = outB.lpf_r := by
    rw [hfC.2.2.1, hfB.2.2.1, hfA.2.2.1, hrl, hx]
    exact biquad_run_split _ xs2 ys2 ys1.length
  have hCrh : outC.hpf_r = outB.hpf_r := by
    rw [hfC.2.2.2, hfB.2.2.2, hfA.2.2.2, hrh, hx]
    exact biquad_run_split _ xs2 ys2 ys1.length
  refine ⟨?_, hCl.symm, hCh.symm, hCrl.symm, hCrh.symm⟩
  apply List.ext_getElem?
  intro idx
  obtain ⟨i, hi⟩ : ∃ i, idx = 2 * i ∨ idx = 2 * i + 1 := ⟨idx / 2, by omega⟩
  have hlenA : (outA.dest.buf.take (2 * xs1.length)).length = 2 * xs1.length := by
    rw [List.length_take]
    omega
  by_cases h1 : idx < 2 * xs1.length
  · rw [List.getElem?_append_left (by omega), List.getElem?_take_of_lt h1,
      List.getElem?_take_of_lt (by omega)]
    have hiA : i < xs1.length := by omega
    have vA := process_loop_dest_at p gl gr xs1 xs2 xs1.length memA i hiA hA
    have vC := process_loop_dest_at p gl gr (xs1 ++ ys1) (xs2 ++ ys2)
      (xs1.length + ys1.length) memC i (by omega) hC
    have cl : ∀ s : biquad_state_t α,
        biquad_output s (src_input (xs1 ++ ys1)) i = biquad_output s (src_input xs1) i :=
      fun s => biquad_output_congr s _ _ i
        (fun j hj => src_input_append_left xs1 ys1 j (by omega))
    have cr : ∀ s : biquad_state_t α,
        biquad_output s (src_input (xs2 ++ ys2)) i = biquad_output s (src_input xs2) i :=
      fun s => biquad_output_congr s _ _ i
        (fun j hj => src_input_append_left xs2 ys2 j (by omega))
    rcases hi with hi | hi <;> subst hi
    · rw [vA.1, vC.1, cl, cl, hfl, hfh]
    · rw [vA.2, vC.2, cr, cr, hrl, hrh]
  · rw [List.getElem?_append_right (by omega), hlenA]
    by_cases h2 : idx < 2 * (xs1.length + ys1.length)
    · rw [List.getElem?_take_of_lt (by omega), List.getElem?_take_of_lt h2]
      obtain ⟨k, hk⟩ : ∃ k, i = xs1.length + k := ⟨i - xs1.length, by omega⟩
      subst hk
      have hkB : k < ys1.length := by omega
      have vB := process_loop_dest_at p gl gr ys1 ys2 ys1.length
        { dest := dB, lpf_l := outA.lpf_l, hpf_l := outA.hpf_l, lpf_r := outA.lpf_r,
          hpf_r := outA.hpf_r } k hkB hB
      have vC := process_loop_dest_at p gl gr (xs1 ++ ys1) (xs2 ++ ys2)
        (xs1.length + ys1.length) memC (xs1.length + k) (by omega) hC
      have sl : ∀ s : biquad_state_t α,
          biquad_output s (src_input (xs1 ++ ys1)) (xs1.length + k)
            = biquad_output (biquad_run s ((List.range xs1.length).map (src_input xs1)))
                (src_input ys1) k :=
        fun s => biquad_output_split s xs1 ys1 k
      have sr : ∀ s : biquad_state_t α,
          biquad_output s (src_input (xs2 ++ ys2)) (xs1.length + k)
            = biquad_output (biquad_run s ((List.range xs1.length).map (src_input xs2)))
                (src_input ys2) k := by
        intro s
        rw [hx]
        exact biquad_output_split s xs2 ys2 k
      rcases hi with hi | hi <;> subst hi
      · have e : 2 * (xs1.length + k) - 2 * xs1.length = 2 * k := by omega
        rw [e, vB.1, vC.1, sl, sl, hfl, hfh, hfA.1, hfA.2.1]
      · have e : 2 * (xs1.length + k) + 1 - 2 * xs1.length = 2 * k + 1 := by omega
        rw [e, vB.2, vC.2, sr, sr, hrl, hrh, hfA.2.2.1, hfA.2.2.2]
    · rw [List.getElem?_eq_none (by rw [List.length_take]; omega),
        List.getElem?_eq_none (by rw [List.length_take]; omega)]

/-- C13: processing is streaming-compositional.  With `len(xs1) = len(xs2)`
and `len(ys1) = len(ys2)`, any four filters and any parameters, calling
`audiodsp_process` on `(xs1, xs2)` and then, with the filters it leaves, on
`(ys1, ys2)` succeeds like the single call on `(xs1 ++ ys1, xs2 ++ ys2)`, the
outputs of the two calls concatenated are the output of the single call, and
the final filter records are the same (destinations of sufficient size). -/
theorem audiodsp_process_streaming (p : process_params α) (xs1 ys1 xs2 ys2 : List Int)
    (dA dB dC : mp_buffer_info_t) (fl fh rl rh : biquad_state_t α)
    (hx : xs1.length = xs2.length) (hy : ys1.length = ys2.length)
    (hA : 2 * xs1.length ≤ dA.buf.length) (hB : 2 * ys1.length ≤ dB.buf.length)
    (hC : 2 * (xs1.length + ys1.length) ≤ dC.buf.length) :
    let rA := audiodsp_process p { buf := xs1, odd := false } { buf := xs2, odd := false }
      { dest := dA, lpf_l := fl, hpf_l := fh, lpf_r := rl, hpf_r := rh }
    let rB := audiodsp_process p { buf := ys1, odd := false } { buf := ys2, odd := false }
      { dest := dB, lpf_l := rA.2.lpf_l, hpf_l := rA.2.hpf_l, lpf_r := rA.2.lpf_r,
        hpf_r := rA.2.hpf_r }
    let rC := audiodsp_process p { buf := xs1 ++ ys1, odd := false }
      { buf := xs2 ++ ys2, odd := false }
      { dest := dC, lpf_l := fl, hpf_l := fh, lpf_r := rl, hpf_r := rh }
    (rA.1 = .ok () ∧ rB.1 = .ok () ∧ rC.1 = .ok ())
      ∧ rA.2.dest.buf.take (2 * xs1.length) ++ rB.2.dest.buf.take (2 * ys1.length)
          = rC.2.dest.buf.take (2 * (xs1.length + ys1.length))
      ∧ rB.2.lpf_l = rC.2.lpf_l ∧ rB.2.hpf_l = rC.2.hpf_l
      ∧ rB.2.lpf_r = rC.2.lpf_r ∧ rB.2.hpf_r = rC.2.hpf_r := by
  intro rA rB rC
  have nA : min xs1.length xs2.length = xs1.length := by rw [← hx, min_self]
  have nB : min ys1.length ys2.length = ys1.length := by rw [← hy, min_self]
  have nC : min (xs1 ++ ys1).length (xs2 ++ ys2).length = xs1.length + ys1.length := by
    rw [List.length_append, List.length_append, ← hx, ← hy, min_self]
  have okA : rA.1 = .ok () := (process_ok_iff _ _ _ _).mpr (by
    show 2 * min xs1.length xs2.length ≤ dA.buf.length
    rw [nA]
    exact hA)
  have okB : rB.1 = .ok () := (process_ok_iff _ _ _ _).mpr (by
    show 2 * min ys1.length ys2.length ≤ dB.buf.length
    rw [nB]
    exact hB)
  have okC : rC.1 = .ok () := (process_ok_iff _ _ _ _).mpr (by
    show 2 * min (xs1 ++ ys1).length (xs2 ++ ys2).length ≤ dC.buf.length
    rw [nC]
    exact hC)
  have mA := process_ok_mem _ _ _ _ okA
  have mB := process_ok_mem _ _ _ _ okB
  have mC := process_ok_mem _ _ _ _ okC
  dsimp only at mA mB mC
  rw [nA] at mA
  rw [nB] at mB
  rw [nC] at mC
  refine ⟨⟨okA, okB, okC⟩, ?_⟩
  rw [mB, mC, mA]
  exact process_loop_split p _ _ xs1 ys1 xs2 ys2
    { dest := dA, lpf_l := fl, hpf_l := fh, lpf_r := rl, hpf_r := rh }
    { dest := dC, lpf_l := fl, hpf_l := fh, lpf_r := rl, hpf_r := rh } dB hx rfl rfl rfl rfl
    hA hB hC

end PipelineTheorems

/-! ## Filter designer: normal form of the branches -/

section RawTheorems

variable {α : Type} [LinearOrderedField α]

end RawTheorems

/-! ## The mathematical functions satisfy the library laws -/

section Convergence

end Convergence

/-! ## The concrete call -/

/-- The concrete call returns normally and leaves `50, 5, 123, -4` in the first
four destination elements; the fifth keeps its value. -/
theorem demo_process_value :
    (audiodsp_process demo_params demo_src1 demo_src2 demo_mem).1 = .ok ()
      ∧ (audiodsp_process demo_params demo_src1 demo_src2 demo_mem).2.dest.buf
          = [50, 5, 123, -4, 9] := by
  have h1 : ⌈(-(14 / 3) : ℚ)⌉ = -4 := by
    rw [Int.ceil_eq_iff]
    constructor <;> norm_num
  constructor
  · exact (process_ok_iff _ _ _ _).mpr (by decide)
  · simp [audiodsp_process, n_samples, demo_params, demo_src1, demo_src2, demo_mem,
      mp_buffer_info_t.len, sizeof_int16_t, process_loop, process_sample, apply_biquad,
      demo_filter, pan_gains, clip16, cast_int16, trunc_toward_zero, wrap_int16]
    norm_num [h1]

/-- Witness of C8: `demo_alt1` and `demo_src1` agree on their first `n = 2`
samples and have the same length. -/
theorem audiodsp_process_ignores_tail_witness :
    (demo_alt1.len = demo_src1.len ∧ demo_alt1.buf ≠ demo_src1.buf
        ∧ demo_alt1.buf.take (min demo_src1.buf.length demo_src2.buf.length)
            = demo_src1.buf.take (min demo_src1.buf.length demo_src2.buf.length))
      ∧ audiodsp_process demo_params demo_alt1 demo_src2 demo_mem
          = audiodsp_process demo_params demo_src1 demo_src2 demo_mem :=
  ⟨⟨by decide, by decide, by decide⟩,
    (audiodsp_process_ignores_tail demo_params demo_src1 demo_src2 demo_alt1 demo_src2
      demo_mem (by decide) (by decide) (by decide) (by decide)).1⟩

/-- Witness of C13: two samples, then one sample, per channel. -/
theorem audiodsp_process_streaming_witness :
    ([100, 200] : List Int).length = ([5, -7] : List Int).length
      ∧ ([300] : List Int).length = ([9] : List Int).length
      ∧ (demo_call_first.1 = .ok () ∧ demo_call_second.1 = .ok ()
          ∧ demo_call_single.1 = .ok ())
      ∧ demo_call_first.2.dest.buf.take 4 ++ demo_call_second.2.dest.buf.take 2
          = demo_call_single.2.dest.buf.take 6
      ∧ demo_call_second.2.lpf_l = demo_call_single.2.lpf_l
      ∧ demo_call_second.2.hpf_l = demo_call_single.2.hpf_l
      ∧ demo_call_second.2.lpf_r = demo_call_single.2.lpf_r
      ∧ demo_call_second.2.hpf_r = demo_call_single.2.hpf_r :=
  ⟨by decide, by decide,
    audiodsp_process_streaming demo_params [100, 200] [300] [5, -7] [9]
      { buf := [0, 0, 0, 0], odd := false } { buf := [0, 0], odd := false }
      { buf := [0, 0, 0, 0, 0, 0], odd := false } demo_filter demo_filter demo_filter
      demo_filter (by decide) (by decide) (by decide) (by decide) (by decide)⟩

/-- Witness of C20: the fifth destination element of the concrete call, at
index `4 = 2*n`, keeps its value. -/
theorem audiodsp_process_frame_witness :
    (audiodsp_process demo_params demo_src1 demo_src2 demo_mem).1 = .ok ()
      ∧ (audiodsp_process demo_params demo_src1 demo_src2 demo_mem).2.dest.buf[4]?
          = demo_mem.dest.buf[4]? :=
  ⟨(process_ok_iff _ _ _ _).mpr (by decide),
    (audiodsp_process_frame demo_params demo_src1 demo_src2 demo_mem
      ((process_ok_iff _ _ _ _).mpr (by decide))).1 4 (by decide)⟩

/-! ## The designer and the recursion in binary32

The theorems above on the designer (C11, C12, C14 to C18) are about the design
equations in exact arithmetic.  This part evaluates the same program text in
binary32 (`F32`, round to nearest, ties to even) and records where the stored
values depart from those equations. -/

section Binary32

set_option maxRecDepth 8192
set_option exponentiation.threshold 1024

/-- Over a field the arithmetic-generic `switch` is the embedding
`biquad_coefficients` itself. -/
theorem biquad_coefficients_arith_eq {β : Type} [LinearOrderedField β] (m : Libm β)
    (ftype : Int) (Q g V K : β) :
    biquad_coefficients_arith m ftype Q g V K = biquad_coefficients m ftype Q g V K :=
  rfl

/-- Over a field the arithmetic-generic constructor, with `fabsf` the absolute
value, is the embedding `biquad_make_new` itself. -/
theorem biquad_make_new_arith_eq {β : Type} [LinearOrderedField β] (m : Libm β)
    (ftype : Int) (Fc Q : β) (g : Option β) :
    biquad_make_new_arith abs m ftype Fc Q g = biquad_make_new m ftype Fc Q g :=
  rfl

/-- Over a field the arithmetic-generic recursion step is the embedding
`apply_biquad` itself. -/
theorem apply_biquad_arith_eq {β : Type} [LinearOrderedField β] (s : biquad_state_t β)
    (x : β) : apply_biquad_arith s x = apply_biquad s x :=
  rfl

/-- The two square roots of the table `f32_libm` are correctly rounded: with
`u` the result and `a` the argument, both in units of `2^(-149)`, and `2^126` the
spacing of binary32 at `u`, `(2u - 2^126)^2 ≤ 4 * a * 2^149 ≤ (2u + 2^126)^2`. -/
theorem f32_libm_sqrtf_rounded :
    (∃ a u : Nat, (2 : F32) = F32.fin a ∧ f32_libm.sqrtf 2 = F32.fin u
        ∧ (2 * u - 2 ^ 126) ^ 2 ≤ 4 * a * 2 ^ 149 ∧ 4 * a * 2 ^ 149 ≤ (2 * u + 2 ^ 126) ^ 2)
      ∧ (∃ a u : Nat, F32.ofRatio 8368737 (2 ^ 21) = F32.fin a
        ∧ f32_libm.sqrtf (F32.ofRatio 8368737 (2 ^ 21)) = F32.fin u
        ∧ (2 * u - 2 ^ 126) ^ 2 ≤ 4 * a * 2 ^ 149
        ∧ 4 * a * 2 ^ 149 ≤ (2 * u + 2 ^ 126) ^ 2) :=
  ⟨⟨_, _, rfl, rfl, by decide, by decide⟩, ⟨_, _, rfl, rfl, by decide, by decide⟩⟩

end Binary32

end AudioDsp
